import Mathlib

/-!
# ApexCoin — shallow embedding and verification

A shallow embedding of the ApexCoin privacy blockchain node (Go sources:
`types/types.go`, `crypto/key.go`, `crypto/ring.go`, `ledger` state,
`consensus` engine, `storage/db.go`), with theorems settling the claims of
the natural-language specification against the code.

Conventions:
* Go byte slices are `List Nat` with every element `< 256`.
* Go `uint64`/`uint32`/`uint8` arithmetic is `Nat` arithmetic reduced
  `% 2^64` / `% 2^32` / `% 2^8` exactly where Go overflow can occur.
* Go maps are association lists (first binding wins on lookup, stores
  overwrite in place, insertion order is the iteration order — Go map
  iteration order is unspecified, so theorems avoid depending on it
  except where a claim is explicitly about the values stored).
* Fallible Go functions return `Except`/`Option`; a Go runtime panic
  (division by zero) is modelled as an explicit error value.
* External library calls (ed25519 signature verification, BadgerDB, JSON
  serialization) are parameters of the embedding; repository code is
  translated literally.
-/

set_option maxRecDepth 100000

namespace ApexCoin

/-- Byte strings: Go `[]byte` as a list of naturals `< 256`. -/
abbrev Bytes := List Nat

/-! ## SHA-256 (Go `crypto/sha256`), FIPS 180-4 over byte lists -/

namespace Sha256

/-- Right-rotation of a 32-bit word. -/
def rotr (n w : Nat) : Nat := ((w >>> n) ||| (w <<< (32 - n))) % 4294967296

/-- SHA-256 Ch function. -/
def ch (e f g : Nat) : Nat := (e &&& f) ^^^ ((e ^^^ 4294967295) &&& g)

/-- SHA-256 Maj function. -/
def maj (a b c : Nat) : Nat := (a &&& b) ^^^ (a &&& c) ^^^ (b &&& c)

/-- Big sigma-0. -/
def bsig0 (w : Nat) : Nat := rotr 2 w ^^^ rotr 13 w ^^^ rotr 22 w

/-- Big sigma-1. -/
def bsig1 (w : Nat) : Nat := rotr 6 w ^^^ rotr 11 w ^^^ rotr 25 w

/-- Small sigma-0. -/
def ssig0 (w : Nat) : Nat := rotr 7 w ^^^ rotr 18 w ^^^ (w >>> 3)

/-- Small sigma-1. -/
def ssig1 (w : Nat) : Nat := rotr 17 w ^^^ rotr 19 w ^^^ (w >>> 10)

/-- The 64 SHA-256 round constants (FIPS 180-4 §4.2.2, in decimal). -/
def K : List Nat :=
  [1116352408, 1899447441, 3049323471, 3921009573, 961987163,
   1508970993, 2453635748, 2870763221, 3624381080, 310598401,
   607225278, 1426881987, 1925078388, 2162078206, 2614888103,
   3248222580, 3835390401, 4022224774, 264347078, 604807628,
   770255983, 1249150122, 1555081692, 1996064986, 2554220882,
   2821834349, 2952996808, 3210313671, 3336571891, 3584528711,
   113926993, 338241895, 666307205, 773529912, 1294757372,
   1396182291, 1695183700, 1986661051, 2177026350, 2456956037,
   2730485921, 2820302411, 3259730800, 3345764771, 3516065817,
   3600352804, 4094571909, 275423344, 430227734, 506948616,
   659060556, 883997877, 958139571, 1322822218, 1537002063,
   1747873779, 1955562222, 2024104815, 2227730452, 2361852424,
   2428436474, 2756734187, 3204031479, 3329325298]

/-- Initial hash state (FIPS 180-4 §5.3.3, in decimal). -/
def initH : List Nat :=
  [1779033703, 3144134277, 1013904242, 2773480762,
   1359893119, 2600822924, 528734635, 1541459225]

/-- Big-endian 8-byte encoding of a (< 2^64) natural. -/
def be64 (n : Nat) : Bytes :=
  [(n >>> 56) % 256, (n >>> 48) % 256, (n >>> 40) % 256, (n >>> 32) % 256,
   (n >>> 24) % 256, (n >>> 16) % 256, (n >>> 8) % 256, n % 256]

/-- Big-endian bytes of a 32-bit word. -/
def wordBytes (w : Nat) : Bytes :=
  [(w >>> 24) % 256, (w >>> 16) % 256, (w >>> 8) % 256, w % 256]

/-- Merkle–Damgård padding: append `0x80`, zeros to 56 mod 64, and the
bit length as 8 big-endian bytes. -/
def pad (msg : Bytes) : Bytes :=
  msg ++ 128 :: List.replicate ((64 + 56 - (msg.length + 1) % 64) % 64) 0
      ++ be64 (8 * msg.length)

/-- Group bytes into big-endian 32-bit words. -/
def toWords : Bytes → List Nat
  | b0 :: b1 :: b2 :: b3 :: rest =>
      (((b0 * 256 + b1) * 256 + b2) * 256 + b3) :: toWords rest
  | _ => []

/-- Split a word list into 16-word blocks, with fuel for structural
recursion (the fuel `ws.length` always suffices). -/
def blocksGo : Nat → List Nat → List (List Nat)
  | 0, _ => []
  | _ + 1, [] => []
  | n + 1, ws => ws.take 16 :: blocksGo n (ws.drop 16)

/-- Split a word list into 16-word blocks (input length is a multiple
of 16 after padding). -/
def blocks (ws : List Nat) : List (List Nat) := blocksGo ws.length ws

/-- Next message-schedule word from the last 16 computed words. -/
def nextW (w : List Nat) : Nat :=
  let l := w.length
  (ssig1 (w.getD (l - 2) 0) + w.getD (l - 7) 0 +
   ssig0 (w.getD (l - 15) 0) + w.getD (l - 16) 0) % 4294967296

/-- Extend the schedule by `n` words. -/
def extendW (w : List Nat) : Nat → List Nat
  | 0 => w
  | n + 1 => extendW (w ++ [nextW w]) n

/-- Full 64-word message schedule of a block. -/
def schedule (block : List Nat) : List Nat := extendW block 48

/-- One compression round on the state `[a,b,c,d,e,f,g,h]`. -/
def round (st : List Nat) (kw : Nat × Nat) : List Nat :=
  match st with
  | [a, b, c, d, e, f, g, h] =>
      let t1 := (h + bsig1 e + ch e f g + kw.1 + kw.2) % 4294967296
      let t2 := (bsig0 a + maj a b c) % 4294967296
      [(t1 + t2) % 4294967296, a, b, c, (d + t1) % 4294967296, e, f, g]
  | other => other

/-- Compression function: 64 rounds plus feed-forward. -/
def compress (H : List Nat) (block : List Nat) : List Nat :=
  let st := (K.zip (schedule block)).foldl round H
  (H.zip st).map fun p => (p.1 + p.2) % 4294967296

/-- `sha256.Sum256`: the SHA-256 digest of a byte string, as 32 bytes. -/
def Sum256 (msg : Bytes) : Bytes :=
  ((blocks (toWords (pad msg))).foldl compress initH |>.map wordBytes).flatten

end Sha256

/-! ## Association-list helpers (Go maps) -/

/-- Go map lookup on an association list. -/
def lookupKV {α β : Type} [DecidableEq α] (k : α) : List (α × β) → Option β
  | [] => none
  | (k', v) :: rest => if k' = k then some v else lookupKV k rest

/-- Go map store: overwrite the binding in place, or append a new one. -/
def insertKV {α β : Type} [DecidableEq α] (k : α) (v : β) :
    List (α × β) → List (α × β)
  | [] => [(k, v)]
  | (k', v') :: rest =>
      if k' = k then (k, v) :: rest else (k', v') :: insertKV k v rest

/-- Go `map[K]bool` used as a set: setting a key to true. -/
def insertSet {α : Type} [DecidableEq α] (x : α) (s : List α) : List α :=
  if x ∈ s then s else s ++ [x]

/-! ## Data model (`types/types.go`) -/

/-- 32-byte SHA-256 digest (`types.Hash`). -/
abbrev Hash := Bytes

/-- 32-byte public key or key-derived identifier (`types.PublicKey`). -/
abbrev PublicKey := Bytes

/-- 64-byte signature (`types.Signature`). -/
abbrev Signature := Bytes

/-- Stealth address: view key plus spend key (`types.Address`). -/
structure Address where
  ViewKey : PublicKey
  SpendKey : PublicKey
deriving DecidableEq

/-- Transaction input (`types.TxInput`): key image plus clear amount. -/
structure TxInput where
  KeyImage : PublicKey
  Amount : Nat
deriving DecidableEq

/-- Transaction output (`types.TxOutput`). -/
structure TxOutput where
  Amount : Nat
  StealthAddr : Address
  TxPublicKey : PublicKey
deriving DecidableEq

/-- Ring signature record (`types.RingSignature`). -/
structure RingSignature where
  Ring : List PublicKey
  C : Hash
  Responses : List Signature
  KeyImage : PublicKey
deriving DecidableEq

/-- Transaction (`types.Transaction`); `RingSig` models the
`RingSignature *RingSignature` pointer (`none` = nil). -/
structure Transaction where
  Version : Nat
  Inputs : List TxInput
  Outputs : List TxOutput
  Fee : Nat
  RingSig : Option RingSignature
  RangeProofs : List Bytes
deriving DecidableEq

/-- Block header (`types.BlockHeader`). -/
structure BlockHeader where
  Height : Nat
  Timestamp : Int
  PrevBlockHash : Hash
  TxRoot : Hash
  StateRoot : Hash
  Proposer : PublicKey
  Round : Nat
deriving DecidableEq

/-- A validator's vote on a block (`types.ValidatorSignature`); the
`Sig` field is the Go `Signature` field (renamed to avoid clashing with
the type name). -/
structure ValidatorSignature where
  Validator : PublicKey
  Sig : Signature
  Round : Nat
deriving DecidableEq

/-- Block (`types.Block`). -/
structure Block where
  Header : BlockHeader
  Transactions : List Transaction
  Validators : List ValidatorSignature
deriving DecidableEq

/-- Unspent transaction output record (`types.UTXO`). -/
structure UTXO where
  TxHash : Hash
  OutputIndex : Nat
  Output : TxOutput
  BlockHeight : Nat
  Spent : Bool
deriving DecidableEq

/-- Validator staking record (`types.ValidatorState`). -/
structure ValidatorState where
  PublicKey : PublicKey
  StakedAmount : Nat
  Active : Bool
  JoinedHeight : Nat
  UnbondingUntil : Nat
  SlashCount : Nat
deriving DecidableEq

/-- Staking transaction kind (`types.StakingType`). -/
inductive StakingType where
  | Bond
  | Unbond
deriving DecidableEq

/-- Staking transaction (`types.StakingTx`); `TxType` is the Go `Type`
field (`Type` is reserved in Lean). -/
structure StakingTx where
  TxType : StakingType
  Validator : PublicKey
  Amount : Nat
  Sig : Signature
deriving DecidableEq

/-- Genesis configuration (`types.GenesisConfig`, fixed version). -/
structure GenesisConfig where
  ChainID : String
  GenesisTime : String
  InitialSupply : Nat
  InitialValidators : List ValidatorState
deriving DecidableEq

/-- `BlockHeader.Hash()`: SHA-256 over
prevBlockHash ∥ txRoot ∥ stateRoot ∥ proposer. The Go source appends
exactly these four fields (height, timestamp, round are not written:
the comment "Add height, timestamp, round (simplified)" is dead). -/
def BlockHeader.Hash (bh : BlockHeader) : Hash :=
  Sha256.Sum256 (bh.PrevBlockHash ++ bh.TxRoot ++ bh.StateRoot ++ bh.Proposer)

/-- The bytes a transaction output contributes to the transaction hash:
stealth view key followed by stealth spend key. -/
def outKeyBytes (o : TxOutput) : Bytes :=
  o.StealthAddr.ViewKey ++ o.StealthAddr.SpendKey

/-- `Transaction.Hash()`: SHA-256 over every input's key image in order,
then every output's viewKey ∥ spendKey in order. -/
def Transaction.Hash (tx : Transaction) : Hash :=
  Sha256.Sum256 ((tx.Inputs.map TxInput.KeyImage).flatten ++
    (tx.Outputs.map outKeyBytes).flatten)

/-! ## Key derivation (`crypto/key.go`)

`ed25519.PrivateKey` is 64 bytes: the 32-byte seed followed by the
32-byte public key; the Go code only ever reads `priv[:32]`.
Key generation draws from `crypto/rand`, so the generated key pairs are
parameters of the embedding. -/

/-- `crypto.KeyPair`. -/
structure KeyPair where
  PrivateKey : Bytes
  PublicKey : PublicKey
deriving DecidableEq

/-- `crypto.WalletKeys`. -/
structure WalletKeys where
  ViewKeyPair : KeyPair
  SpendKeyPair : KeyPair
deriving DecidableEq

/-- `WalletKeys.GetAddress`. -/
def WalletKeys.GetAddress (wk : WalletKeys) : Address :=
  { ViewKey := wk.ViewKeyPair.PublicKey, SpendKey := wk.SpendKeyPair.PublicKey }

/-- `computeSharedSecret`: hash-based ECDH surrogate.  The Go hasher
absorbs `privKey[:32] ∥ pubKey`, and `sha256.Sum256(h.Sum(nil))` hashes
that digest again, so the result is SHA-256(SHA-256(priv₃₂ ∥ pub)). -/
def computeSharedSecret (privKey : Bytes) (pubKey : PublicKey) : Bytes :=
  Sha256.Sum256 (Sha256.Sum256 (privKey.take 32 ++ pubKey))

/-- `deriveOneTimeKey`: SHA-256(SHA-256(sharedSecret ∥ baseKey)). -/
def deriveOneTimeKey (sharedSecret : Bytes) (baseKey : PublicKey) : PublicKey :=
  Sha256.Sum256 (Sha256.Sum256 (sharedSecret ++ baseKey))

/-- `derivePrivateKey`: SHA-256(SHA-256(sharedSecret ∥ basePriv₃₂)). -/
def derivePrivateKey (sharedSecret : Bytes) (basePriv : Bytes) : Bytes :=
  Sha256.Sum256 (Sha256.Sum256 (sharedSecret ++ basePriv.take 32))

/-- `GenerateStealthAddress` with the randomly generated ephemeral key
pair made explicit as a parameter.  The returned output has amount 0
(Go zero value), the recipient's view key, the derived one-time spend
key, and the ephemeral public key. -/
def GenerateStealthAddress (recipientAddr : Address) (ephemeral : KeyPair) :
    TxOutput × KeyPair :=
  let sharedSecret := computeSharedSecret ephemeral.PrivateKey recipientAddr.ViewKey
  let oneTimeKey := deriveOneTimeKey sharedSecret recipientAddr.SpendKey
  ({ Amount := 0,
     StealthAddr := { ViewKey := recipientAddr.ViewKey, SpendKey := oneTimeKey },
     TxPublicKey := ephemeral.PublicKey }, ephemeral)

/-- `WalletKeys.ScanTransaction`: recompute the one-time key from the
wallet's view private key and the output's txPublicKey and compare.
(The Go error result is always nil and is dropped.) -/
def WalletKeys.ScanTransaction (wk : WalletKeys) (output : TxOutput) :
    Bool × Option PublicKey :=
  let sharedSecret := computeSharedSecret wk.ViewKeyPair.PrivateKey output.TxPublicKey
  let expectedKey := deriveOneTimeKey sharedSecret wk.SpendKeyPair.PublicKey
  if expectedKey = output.StealthAddr.SpendKey then (true, some expectedKey)
  else (false, none)

/-- `WalletKeys.DeriveSpendKey`. -/
def WalletKeys.DeriveSpendKey (wk : WalletKeys) (output : TxOutput) :
    Except String Bytes :=
  if (wk.ScanTransaction output).1 then
    .ok (derivePrivateKey
      (computeSharedSecret wk.ViewKeyPair.PrivateKey output.TxPublicKey)
      wk.SpendKeyPair.PrivateKey)
  else .error "output does not belong to this wallet"

/-! ## Ledger state (`ledger` package in `storage/db.go` bundle)

`State` fields mirror the Go struct; the `sync.RWMutex` is dropped
(sequential embedding).  Go maps become association lists; the
`map[PublicKey]bool` spent set keeps only the keys set to true.
Mutating methods return the state after the call (Go mutates in place)
paired with the returned error. -/

/-- `ledger.State`. -/
structure State where
  utxos : List (Bytes × UTXO)
  spentKeyImages : List PublicKey
  validators : List (PublicKey × ValidatorState)
  height : Nat
  totalSupply : Nat
deriving DecidableEq

/-- `ledger.NewState()`. -/
def NewState : State :=
  { utxos := [], spentKeyImages := [], validators := [], height := 0,
    totalSupply := 0 }

/-- Lowercase hex digit of a nibble (ASCII code). -/
def hexDigit (n : Nat) : Nat := if n < 10 then 48 + n else 87 + n

/-- `Hash.String()`: lowercase hex encoding, as the bytes of the Go
string. -/
def hexString (bs : Bytes) : Bytes :=
  (bs.map fun b => [hexDigit (b / 16), hexDigit (b % 16)]).flatten

/-- Big-endian 4-byte encoding of a (< 2^32) natural
(`binary.BigEndian.PutUint32`). -/
def be32 (n : Nat) : Bytes :=
  [(n >>> 24) % 256, (n >>> 16) % 256, (n >>> 8) % 256, n % 256]

/-- `makeUTXOKey`: the Go string `txHash.String() + string(be32 index)`
as bytes. -/
def makeUTXOKey (txHash : Hash) (index : Nat) : Bytes :=
  hexString txHash ++ be32 index

/-- `State.applyTransaction` (caller holds the lock): first pass checks
every input's key image against the spent set; then all key images are
inserted and one UTXO is added per output.  The ring-signature branch
in the source is an empty TODO. -/
def State.applyTransaction (s : State) (tx : Transaction) (blockHeight : Nat) :
    State × Option String :=
  if tx.Inputs.any fun input => decide (input.KeyImage ∈ s.spentKeyImages) then
    (s, some "double-spend detected: key image already spent")
  else
    let spent := tx.Inputs.foldl (fun acc input => insertSet input.KeyImage acc)
      s.spentKeyImages
    let txHash := tx.Hash
    let utxos := tx.Outputs.enum.foldl
      (fun m iOut => insertKV (makeUTXOKey txHash iOut.1)
        { TxHash := txHash, OutputIndex := iOut.1, Output := iOut.2,
          BlockHeight := blockHeight, Spent := false } m)
      s.utxos
    ({ s with spentKeyImages := spent, utxos := utxos }, none)

/-- The transaction loop of `State.ApplyBlock`: apply in order, stop at
the first error, never undo earlier transactions. -/
def State.applyTxs (s : State) (blockHeight : Nat) :
    List Transaction → State × Option String
  | [] => (s, none)
  | tx :: rest =>
      match s.applyTransaction tx blockHeight with
      | (s', some e) => (s', some e)
      | (s', none) => s'.applyTxs blockHeight rest

/-- `State.ApplyBlock`: height must be current height + 1 (uint64
addition); transactions are applied in order; on success the height
advances.  On a transaction error the partially updated state is kept
(the Go code has no rollback). -/
def State.ApplyBlock (s : State) (block : Block) : State × Option String :=
  if block.Header.Height ≠ (s.height + 1) % 18446744073709551616 then
    (s, some "invalid block height")
  else
    match s.applyTxs block.Header.Height block.Transactions with
    | (s', some e) => (s', some e)
    | (s', none) => ({ s' with height := block.Header.Height }, none)

/-- `State.AddValidator`: fails if the key exists; otherwise stores a
new record with Active = true and zero-valued unbonding/slash fields. -/
def State.AddValidator (s : State) (pubKey : PublicKey) (stake height : Nat) :
    State × Option String :=
  match lookupKV pubKey s.validators with
  | some _ => (s, some "validator already exists")
  | none =>
      let newVal : ValidatorState :=
        { PublicKey := pubKey, StakedAmount := stake, Active := true,
          JoinedHeight := height, UnbondingUntil := 0, SlashCount := 0 }
      ({ s with validators := insertKV pubKey newVal s.validators }, none)

/-- `State.UpdateValidator`: apply an in-place mutator to an existing
record. -/
def State.UpdateValidator (s : State) (pubKey : PublicKey)
    (update : ValidatorState → ValidatorState) : State × Option String :=
  match lookupKV pubKey s.validators with
  | none => (s, some "validator not found")
  | some val =>
      ({ s with validators := insertKV pubKey (update val) s.validators }, none)

/-- `State.GetValidator`. -/
def State.GetValidator (s : State) (pubKey : PublicKey) :
    Except String ValidatorState :=
  match lookupKV pubKey s.validators with
  | none => .error "validator not found"
  | some val => .ok val

/-- `State.GetActiveValidators`: all records with Active = true, in the
model's map-iteration order (Go's is unspecified). -/
def State.GetActiveValidators (s : State) : List ValidatorState :=
  (s.validators.map Prod.snd).filter ValidatorState.Active

/-- `State.GetHeight`. -/
def State.GetHeight (s : State) : Nat := s.height

/-- `State.InitializeGenesis`.  The Go loop is
`for _, val := range genesis.InitialValidators { s.validators[val.PublicKey] = &val }`
under `go 1.21`, where `&val` is the address of the single loop
variable: after the loop every stored pointer aliases one cell holding
the *last* element, so each listed public key maps to a copy of the
last listed validator record. -/
def State.InitializeGenesis (s : State) (genesis : GenesisConfig) :
    State × Option String :=
  let validators :=
    match genesis.InitialValidators.getLast? with
    | none => s.validators
    | some last =>
        genesis.InitialValidators.foldl
          (fun m v => insertKV v.PublicKey last m) s.validators
  ({ s with
      validators := validators, totalSupply := genesis.InitialSupply,
      height := 0 }, none)

/-! ## IEEE 754 binary64 model for the quorum threshold

`consensus` computes `uint64(float64(e.totalStake) * BFTQuorum)` with
`BFTQuorum = 2.0 / 3.0`.  Go evaluates the untyped constant `2.0/3.0`
exactly and converts it to the nearest `float64` when used; the product
is a `float64` multiplication (round to nearest, ties to even) and the
`uint64` conversion truncates toward zero.  The model below implements
round-to-nearest-even at 53 significand bits over exact rationals; it
is valid for the normal, non-overflowing range, which covers every
value arising from a `uint64` total stake. -/

/-- Bit length of a natural, by structural recursion on a fuel bound
(`Nat.log2` itself is well-founded recursion, which the kernel cannot
evaluate). -/
def natBits (fuel n : Nat) : Nat :=
  match fuel with
  | 0 => 0
  | f + 1 => if n = 0 then 0 else natBits f (n / 2) + 1

/-- ⌊log₂ n⌋ for n ≥ 1 (0 at 0): bit length minus one. -/
def natLog2 (n : Nat) : Nat := natBits n n - 1

/-- A nonnegative binary64 value, exactly: `m * 2^exp` with `m = 0` or
`m ∈ [2^52, 2^53)`.  The embedding never leaves the normal range. -/
structure F64 where
  m : Nat
  exp : Int
deriving DecidableEq

/-- Round `M * 2^E` (M, E exact) to the nearest binary64, ties to even.
Values of 52 or fewer bits are exact and are normalized by a left
shift; wider values are cut at 53 bits with round-half-to-even, and a
carry out of the significand bumps the exponent. -/
def roundDyadic (M : Nat) (E : Int) : F64 :=
  if M = 0 then { m := 0, exp := 0 }
  else
    let L := natLog2 M
    if L ≤ 52 then { m := M <<< (52 - L), exp := E - (52 - L) }
    else
      let s := L - 52
      let n := M >>> s
      let r := M % 2 ^ s
      let half := 2 ^ (s - 1)
      let m0 :=
        if half < r then n + 1
        else if r < half then n
        else if n % 2 = 0 then n else n + 1
      if m0 = 2 ^ 53 then { m := 2 ^ 52, exp := E + s + 1 }
      else { m := m0, exp := E + s }

/-- Round the fraction `a / b` (b > 0) to the nearest binary64, ties to
even: correctly rounded division via quotient, remainder-of-cut bits
and sticky remainder. -/
def fracToF64 (a b : Nat) : F64 :=
  if a = 0 then { m := 0, exp := 0 }
  else
    let k := 55 + natLog2 b
    let Q := (a <<< k) / b
    let R := (a <<< k) % b
    let L := natLog2 Q
    let s := L - 52
    let n := Q >>> s
    let r := Q % 2 ^ s
    let half := 2 ^ (s - 1)
    let m0 :=
      if half < r ∨ (r = half ∧ R ≠ 0) then n + 1
      else if r < half then n
      else if n % 2 = 0 then n else n + 1
    if m0 = 2 ^ 53 then { m := 2 ^ 52, exp := -k + s + 1 }
    else { m := m0, exp := -k + s }

/-- Go `float64(t)` for a `uint64` t (exact below 2^53, rounded to
nearest above). -/
def float64OfNat (t : Nat) : F64 := roundDyadic t 0

/-- The binary64 value of the Go constant `BFTQuorum = 2.0 / 3.0` (the
untyped constant is exact and converted on use). -/
def bftQuorumF : F64 := fracToF64 2 3

/-- binary64 multiplication: the exact product re-rounded. -/
def floatMul (a b : F64) : F64 := roundDyadic (a.m * b.m) (a.exp + b.exp)

/-- Go `uint64(f)` for a nonnegative float: truncation toward zero. -/
def f64TruncNat (f : F64) : Nat :=
  match f.exp with
  | .ofNat e => f.m <<< e
  | .negSucc e => f.m >>> (e + 1)

/-- The quorum threshold the code computes:
`uint64(float64(totalStake) * BFTQuorum)`. -/
def quorumThreshold (totalStake : Nat) : Nat :=
  f64TruncNat (floatMul (float64OfNat totalStake) bftQuorumF)

/-- The spec's quorum threshold, ⌈2·totalStake/3⌉, written from the
spec's words for comparison with `quorumThreshold`. -/
def specCeilTwoThirds (totalStake : Nat) : Nat := (2 * totalStake + 2) / 3

/-! ## Consensus engine (`consensus` package)

The `sync.RWMutex`, the ed25519 private key, and the proposal timeout
play no role in the embedded operations; ed25519 signature verification
is an oracle parameter of `CollectVote`.  Go note: `FinalizeBlock`
holds the write lock and calls `HasQuorum`, which takes the read lock —
under the sequential embedding the lock re-entry is ignored. -/

/-- `consensus.Engine`. -/
structure Engine where
  state : State
  currentRound : Nat
  validatorSet : List ValidatorState
  totalStake : Nat
  validatorPub : PublicKey
  votes : List (PublicKey × ValidatorSignature)
deriving DecidableEq

/-- `Engine.UpdateValidatorSet`: cache the active set and its total
stake (uint64 accumulation). -/
def Engine.UpdateValidatorSet (e : Engine) : Engine :=
  let validators := e.state.GetActiveValidators
  { e with
    validatorSet := validators,
    totalStake := validators.foldl
      (fun total v => (total + v.StakedAmount) % 18446744073709551616) 0 }

/-- Outcome of a Go function that can also panic at runtime. -/
inductive GoErr where
  | msg (s : String)
  | panicModZero
deriving DecidableEq

deriving instance DecidableEq for Except

/-- Big-endian read of bytes as a natural (`binary.BigEndian.Uint64` on
8 bytes). -/
def beNat (bs : Bytes) : Nat := bs.foldl (fun acc b => acc * 256 + b) 0

/-- The cumulative-stake scan of `SelectProposer`: return the first
validator whose running stake total exceeds the selection value. -/
def selectByStake (selection : Nat) : Nat → List ValidatorState → Option PublicKey
  | _, [] => none
  | cumulative, v :: rest =>
      let c := (cumulative + v.StakedAmount) % 18446744073709551616
      if selection < c then some v.PublicKey else selectByStake selection c rest

/-- `Engine.SelectProposer`: only an *empty* validator set is rejected;
when the set is non-empty but the cached total stake is 0, the Go
expression `selection % e.totalStake` divides by zero and panics
(modelled as `GoErr.panicModZero`).  The final fallback returns the
first validator. -/
def Engine.SelectProposer (e : Engine) (height round : Nat) :
    Except GoErr PublicKey :=
  if e.validatorSet.length = 0 then .error (.msg "no validators in set")
  else
    let seed := Sha256.be64 height ++ be32 round
    let hash := Sha256.Sum256 seed
    let sel := beNat (hash.take 8)
    if e.totalStake = 0 then .error .panicModZero
    else
      match selectByStake (sel % e.totalStake) 0 e.validatorSet with
      | some pk => .ok pk
      | none =>
          .ok ((e.validatorSet.headD
            { PublicKey := [], StakedAmount := 0, Active := false,
              JoinedHeight := 0, UnbondingUntil := 0, SlashCount := 0 }).PublicKey)

/-- The slashing mutator passed to `UpdateValidator` by
`slashValidator`: subtract `stake * 10 / 100` (uint64 arithmetic),
increment `SlashCount` (uint32), deactivate at 3 or more slashes. -/
def slashUpdate (val : ValidatorState) : ValidatorState :=
  let slashAmount := val.StakedAmount * 10 % 18446744073709551616 / 100
  let newStake :=
    (val.StakedAmount + 18446744073709551616 - slashAmount)
      % 18446744073709551616
  let newCount := (val.SlashCount + 1) % 4294967296
  { val with
    StakedAmount := newStake, SlashCount := newCount,
    Active := if 3 ≤ newCount then false else val.Active }

/-- `Engine.slashValidator`: update via the ledger, ignoring a
validator-not-found error. -/
def Engine.slashValidator (e : Engine) (validator : PublicKey) : Engine :=
  { e with state := (e.state.UpdateValidator validator slashUpdate).1 }

/-- `Engine.CollectVote`, with ed25519 verification as an oracle
`verify validator blockHash signature`.  Equivocation check: any stored
vote from the same validator with the same round triggers slashing and
rejection — the stored vote's block hash is never compared (votes do
not carry one). -/
def Engine.CollectVote (verify : PublicKey → Hash → Signature → Bool)
    (e : Engine) (vote : ValidatorSignature) (blockHash : Hash) :
    Engine × Option String :=
  match e.state.GetValidator vote.Validator with
  | .error _ => (e, some "unknown validator")
  | .ok validator =>
      if !validator.Active then (e, some "inactive validator")
      else if !verify vote.Validator blockHash vote.Sig then
        (e, some "invalid signature")
      else
        match lookupKV vote.Validator e.votes with
        | some existing =>
            if existing.Round = vote.Round then
              (e.slashValidator vote.Validator, some "double-vote detected")
            else
              ({ e with votes := insertKV vote.Validator vote e.votes }, none)
        | none =>
            ({ e with votes := insertKV vote.Validator vote e.votes }, none)

/-- The cumulative stake of the held votes: look each voting validator
up in the ledger (skipping unknown ones) and sum the staked amounts
(uint64 accumulation). -/
def Engine.voteStake (e : Engine) : Nat :=
  e.votes.foldl
    (fun acc kv =>
      match e.state.GetValidator kv.1 with
      | .error _ => acc
      | .ok val => (acc + val.StakedAmount) % 18446744073709551616)
    0

/-- `Engine.HasQuorum`: vote stake at least
`uint64(float64(totalStake) * BFTQuorum)`. -/
def Engine.HasQuorum (e : Engine) : Bool :=
  quorumThreshold e.totalStake ≤ e.voteStake

/-- `Engine.FinalizeBlock`: append every held vote to
`block.Validators` *before* the quorum check; on failure the engine is
untouched (votes kept, round kept) but the block argument has already
been mutated; on success clear the votes and advance the round
(uint32). -/
def Engine.FinalizeBlock (e : Engine) (block : Block) :
    Engine × Block × Option String :=
  let block' := { block with
    Validators := block.Validators ++ e.votes.map Prod.snd }
  if !e.HasQuorum then
    (e, block', some "insufficient validator votes for finality")
  else
    ({ e with votes := [], currentRound := (e.currentRound + 1) % 4294967296 },
     block', none)

/-- The unbonding mutator of `Engine.ProcessStakingTx`: deactivate and
set `UnbondingUntil = height + UnbondingPeriod` (uint64). -/
def unbondUpdate (height : Nat) (val : ValidatorState) : ValidatorState :=
  { val with
    Active := false,
    UnbondingUntil := (height + 100) % 18446744073709551616 }

/-- `Engine.ProcessStakingTx`: Bond adds a validator, Unbond applies
the unbonding mutator. -/
def Engine.ProcessStakingTx (e : Engine) (stx : StakingTx) (height : Nat) :
    Engine × Option String :=
  match stx.TxType with
  | .Bond =>
      let r := e.state.AddValidator stx.Validator stx.Amount height
      ({ e with state := r.1 }, r.2)
  | .Unbond =>
      let r := e.state.UpdateValidator stx.Validator (unbondUpdate height)
      ({ e with state := r.1 }, r.2)

/-! ## Persistence (`storage/db.go`)

BadgerDB is modelled as an association list from key bytes to value
bytes; `json.Marshal` is an oracle parameter. -/

/-- The key-value store backing `storage.Database`. -/
abbrev Store := List (Bytes × Bytes)

/-- `makeBlockKey`: byte 'b' (98) followed by the height bytes in the
order the code writes them — `key[1] = byte(height)` is the *least*
significant byte, so the encoding is little-endian. -/
def makeBlockKey (height : Nat) : Bytes :=
  [98, height % 256, (height >>> 8) % 256, (height >>> 16) % 256,
   (height >>> 24) % 256, (height >>> 32) % 256, (height >>> 40) % 256,
   (height >>> 48) % 256, (height >>> 56) % 256]

/-- The key layout the spec describes: byte 'b' followed by the 8-byte
*big-endian* height, written from the spec's words for comparison with
`makeBlockKey`. -/
def specBlockKeyBE (height : Nat) : Bytes := 98 :: Sha256.be64 height

/-- `makeBlockHashKey`: byte 'h' (104) followed by the 32-byte header
hash. -/
def makeBlockHashKey (hash : Hash) : Bytes := 104 :: hash

/-- `Database.SaveBlock`: serialize once, store under the height key
and the hash key in one transaction. -/
def Database.SaveBlock (marshal : Block → Bytes) (db : Store) (block : Block) :
    Store :=
  let data := marshal block
  insertKV (makeBlockHashKey block.Header.Hash) data
    (insertKV (makeBlockKey block.Header.Height) data db)

/-- `Database.GetBlock`: look up the serialized block under the height
key (deserialization is the oracle's inverse and is left abstract). -/
def Database.GetBlock (db : Store) (height : Nat) : Option Bytes :=
  lookupKV (makeBlockKey height) db

/-! ## Invariants under scrutiny -/

/-- The spec's active-set invariant I6: every record the active set
returns is active with positive stake. -/
def ActiveSetInv (s : State) : Prop :=
  ∀ v ∈ s.GetActiveValidators, v.Active = true ∧ 0 < v.StakedAmount

/-- Every stored stake fits in a uint64 — automatic for any state a Go
program can hold, made explicit because the model's naturals are
unbounded. -/
def StakesBounded (s : State) : Prop :=
  ∀ v ∈ s.validators.map Prod.snd, v.StakedAmount < 18446744073709551616

instance (s : State) : Decidable (ActiveSetInv s) :=
  List.decidableBAll _ s.GetActiveValidators

instance (s : State) : Decidable (StakesBounded s) :=
  List.decidableBAll _ (s.validators.map Prod.snd)

/-! ## Concrete inputs used by counterexamples and witnesses -/

/-- 32 zero bytes. -/
def zero32 : Bytes := List.replicate 32 0

/-- 64 zero bytes. -/
def zero64 : Bytes := List.replicate 64 0

/-- A signature-verification oracle that accepts (models
`ed25519.Verify` succeeding on honestly signed votes). -/
def verifyAlways : PublicKey → Hash → Signature → Bool := fun _ _ _ => true

/-- Key image used by the double-spending block of C1. -/
def kiK : PublicKey := List.replicate 32 7

/-- A transaction spending key image `kiK`, with no outputs. -/
def txSpendK : Transaction :=
  { Version := 1, Inputs := [{ KeyImage := kiK, Amount := 10 }], Outputs := [],
    Fee := 10, RingSig := none, RangeProofs := [] }

/-- Height-1 block whose second transaction double-spends the key image
of its first. -/
def blockC1 : Block :=
  { Header := { Height := 1, Timestamp := 0, PrevBlockHash := zero32,
                TxRoot := zero32, StateRoot := zero32, Proposer := zero32,
                Round := 0 },
    Transactions := [txSpendK, txSpendK], Validators := [] }

/-- Validator key A. -/
def pkA : PublicKey := List.replicate 32 1

/-- Validator key B. -/
def pkB : PublicKey := List.replicate 32 2

/-- Validator A: active, stake 66. -/
def valA66 : ValidatorState :=
  { PublicKey := pkA, StakedAmount := 66, Active := true, JoinedHeight := 0,
    UnbondingUntil := 0, SlashCount := 0 }

/-- Validator B: active, stake 34. -/
def valB34 : ValidatorState :=
  { PublicKey := pkB, StakedAmount := 34, Active := true, JoinedHeight := 0,
    UnbondingUntil := 0, SlashCount := 0 }

/-- Ledger with validators A (66) and B (34): total stake 100. -/
def stateC2 : State :=
  { utxos := [], spentKeyImages := [],
    validators := [(pkA, valA66), (pkB, valB34)], height := 0,
    totalSupply := 0 }

/-- A's vote at round 0. -/
def voteA : ValidatorSignature := { Validator := pkA, Sig := zero64, Round := 0 }

/-- Engine over `stateC2` holding only A's vote, with the cached
validator set and total stake produced by `UpdateValidatorSet`. -/
def engineC2 : Engine :=
  Engine.UpdateValidatorSet
    { state := stateC2, currentRound := 0, validatorSet := [], totalStake := 0,
      validatorPub := zero32, votes := [(pkA, voteA)] }

/-- An arbitrary block to finalize. -/
def blockEmpty : Block :=
  { Header := { Height := 1, Timestamp := 0, PrevBlockHash := zero32,
                TxRoot := zero32, StateRoot := zero32, Proposer := zero32,
                Round := 0 },
    Transactions := [], Validators := [] }

/-- Validator key V (for the equivocation scenario). -/
def pkV : PublicKey := List.replicate 32 3

/-- Validator V: active, stake 100. -/
def valV100 : ValidatorState :=
  { PublicKey := pkV, StakedAmount := 100, Active := true, JoinedHeight := 0,
    UnbondingUntil := 0, SlashCount := 0 }

/-- Ledger with only validator V. -/
def stateC4 : State :=
  { utxos := [], spentKeyImages := [], validators := [(pkV, valV100)],
    height := 0, totalSupply := 0 }

/-- Engine over `stateC4` with no votes yet. -/
def engineC4 : Engine :=
  Engine.UpdateValidatorSet
    { state := stateC4, currentRound := 0, validatorSet := [], totalStake := 0,
      validatorPub := zero32, votes := [] }

/-- V's vote at round 0. -/
def voteV : ValidatorSignature := { Validator := pkV, Sig := zero64, Round := 0 }

/-- A block hash both deliveries of `voteV` are collected against. -/
def hashH : Hash := List.replicate 32 9

/-- The engine after the first delivery of `voteV`. -/
def engineC4After : Engine :=
  (Engine.CollectVote verifyAlways engineC4 voteV hashH).1

/-- Validator with stake 0 but Active = true. -/
def valZ0 : ValidatorState :=
  { PublicKey := pkA, StakedAmount := 0, Active := true, JoinedHeight := 0,
    UnbondingUntil := 0, SlashCount := 0 }

/-- Ledger whose only validator is active with stake 0. -/
def stateC5 : State :=
  { utxos := [], spentKeyImages := [], validators := [(pkA, valZ0)],
    height := 0, totalSupply := 0 }

/-- Engine whose validator set is non-empty but has total stake 0. -/
def engineC5 : Engine :=
  Engine.UpdateValidatorSet
    { state := stateC5, currentRound := 0, validatorSet := [], totalStake := 0,
      validatorPub := zero32, votes := [] }

/-- Engine with an empty validator set (the case the code does guard). -/
def engineC5Empty : Engine :=
  { state := NewState, currentRound := 0, validatorSet := [], totalStake := 0,
    validatorPub := zero32, votes := [] }

/-! RFC 8032 §7.1 Ed25519 test key pairs (TEST 1–3): genuine
seed/public-key pairs, standing in for `GenerateKeyPair` outputs. -/

/-- RFC 8032 TEST 1 secret seed. -/
def seedRfc1 : Bytes :=
  [157, 97, 177, 157, 239, 253, 90, 96, 186, 132, 74, 244,
   146, 236, 44, 196, 68, 73, 197, 105, 123, 50, 105, 25,
   112, 59, 172, 3, 28, 174, 127, 96]

/-- RFC 8032 TEST 1 public key. -/
def pubRfc1 : PublicKey :=
  [215, 90, 152, 1, 130, 177, 10, 183, 213, 75, 254, 211,
   201, 100, 7, 58, 14, 225, 114, 243, 218, 166, 35, 37,
   175, 2, 26, 104, 247, 7, 81, 26]

/-- RFC 8032 TEST 2 secret seed. -/
def seedRfc2 : Bytes :=
  [76, 205, 8, 155, 40, 255, 150, 218, 157, 182, 195, 70,
   236, 17, 78, 15, 91, 138, 49, 159, 53, 171, 166, 36,
   218, 140, 246, 237, 79, 184, 166, 251]

/-- RFC 8032 TEST 2 public key. -/
def pubRfc2 : PublicKey :=
  [61, 64, 23, 195, 232, 67, 137, 90, 146, 183, 10, 167,
   77, 27, 126, 188, 156, 152, 44, 207, 46, 196, 150, 140,
   192, 205, 85, 241, 42, 244, 102, 12]

/-- RFC 8032 TEST 3 secret seed. -/
def seedRfc3 : Bytes :=
  [197, 170, 141, 244, 63, 159, 131, 123, 237, 183, 68, 47,
   49, 220, 183, 177, 102, 211, 133, 53, 7, 111, 9, 75,
   133, 206, 58, 46, 11, 68, 88, 247]

/-- RFC 8032 TEST 3 public key. -/
def pubRfc3 : PublicKey :=
  [252, 81, 205, 142, 98, 24, 161, 163, 141, 164, 126, 208,
   2, 48, 240, 88, 8, 22, 237, 19, 186, 51, 3, 172,
   93, 235, 145, 21, 72, 144, 128, 37]

/-- The wallet of the C3 scenario: view key pair = RFC 8032 TEST 1,
spend key pair = TEST 2 (an `ed25519.PrivateKey` is seed ∥ public). -/
def walletC3 : WalletKeys :=
  { ViewKeyPair := { PrivateKey := seedRfc1 ++ pubRfc1, PublicKey := pubRfc1 },
    SpendKeyPair := { PrivateKey := seedRfc2 ++ pubRfc2, PublicKey := pubRfc2 } }

/-- The sender's ephemeral key pair: RFC 8032 TEST 3. -/
def ephC3 : KeyPair :=
  { PrivateKey := seedRfc3 ++ pubRfc3, PublicKey := pubRfc3 }

/-- The stealth output generated for `walletC3`'s own address. -/
def outC3 : TxOutput := (GenerateStealthAddress walletC3.GetAddress ephC3).1

/-- Output 1 of the reorder scenario: distinct view/spend pair. -/
def outR1 : TxOutput :=
  { Amount := 5,
    StealthAddr := { ViewKey := List.replicate 32 11,
                     SpendKey := List.replicate 32 12 },
    TxPublicKey := List.replicate 32 13 }

/-- Output 2 of the reorder scenario: a different view/spend pair. -/
def outR2 : TxOutput :=
  { Amount := 6,
    StealthAddr := { ViewKey := List.replicate 32 21,
                     SpendKey := List.replicate 32 22 },
    TxPublicKey := List.replicate 32 23 }

/-- Transaction with outputs (outR1, outR2) in that order. -/
def txP : Transaction :=
  { Version := 1, Inputs := [{ KeyImage := List.replicate 32 31, Amount := 10 }],
    Outputs := [outR1, outR2], Fee := 1, RingSig := none, RangeProofs := [] }

/-- `txP` with the two outputs swapped. -/
def txQ : Transaction :=
  { Version := 1, Inputs := [{ KeyImage := List.replicate 32 31, Amount := 10 }],
    Outputs := [outR2, outR1], Fee := 1, RingSig := none, RangeProofs := [] }

/-- `txP` with version, amounts, fee, ring signature and range proofs
all changed but input key images and output key pairs intact. -/
def txR : Transaction :=
  { Version := 2, Inputs := [{ KeyImage := List.replicate 32 31, Amount := 999 }],
    Outputs := [{ outR1 with Amount := 77 }, { outR2 with Amount := 88 }],
    Fee := 42,
    RingSig := some { Ring := [List.replicate 32 41], C := zero32,
                      Responses := [zero64], KeyImage := List.replicate 32 31 },
    RangeProofs := [[1, 2, 3]] }

/-- Two headers that agree on the four hashed fields and differ in
height, timestamp and round. -/
def hdrA : BlockHeader :=
  { Height := 5, Timestamp := 1000, PrevBlockHash := List.replicate 32 1,
    TxRoot := List.replicate 32 2, StateRoot := List.replicate 32 3,
    Proposer := List.replicate 32 4, Round := 1 }

/-- See `hdrA`. -/
def hdrB : BlockHeader :=
  { Height := 6, Timestamp := 2000, PrevBlockHash := List.replicate 32 1,
    TxRoot := List.replicate 32 2, StateRoot := List.replicate 32 3,
    Proposer := List.replicate 32 4, Round := 2 }

/-- The little-endian byte order `makeBlockKey` actually writes. -/
def leBytes64 (n : Nat) : Bytes :=
  [n % 256, (n >>> 8) % 256, (n >>> 16) % 256, (n >>> 24) % 256,
   (n >>> 32) % 256, (n >>> 40) % 256, (n >>> 48) % 256, (n >>> 56) % 256]

/-- Engine for the C10 witness: validator A (stake 66) and B (34) with
only B's vote held — 34 < threshold 66, so finalization fails. -/
def engineC10 : Engine :=
  Engine.UpdateValidatorSet
    { state := stateC2, currentRound := 0, validatorSet := [], totalStake := 0,
      validatorPub := zero32,
      votes := [(pkB, { Validator := pkB, Sig := zero64, Round := 0 })] }

/-! ## Shared lemmas about the map model -/

theorem lookupKV_insertKV {α β : Type} [DecidableEq α] (k q : α) (v : β) :
    ∀ m : List (α × β),
      lookupKV q (insertKV k v m) = if k = q then some v else lookupKV q m
  | [] => by simp [insertKV, lookupKV]
  | (k', v') :: rest => by
      simp only [insertKV]
      by_cases hk : k' = k
      · subst hk
        simp only [if_pos rfl, lookupKV]
        by_cases hq : k' = q <;> simp [hq]
      · simp only [if_neg hk, lookupKV]
        by_cases hq : k' = q
        · subst hq
          have hne : ¬k = k' := fun hh => hk hh.symm
          simp [hne]
        · simp [hq, lookupKV_insertKV k q v rest]

theorem mem_values_insertKV {α β : Type} [DecidableEq α] {b : β} {k : α}
    {v : β} : ∀ {m : List (α × β)},
      b ∈ (insertKV k v m).map Prod.snd → b = v ∨ b ∈ m.map Prod.snd
  | [], h => by simpa [insertKV] using h
  | (k', v') :: rest, h => by
      by_cases hk : k' = k
      · simp only [insertKV, if_pos hk, List.map_cons, List.mem_cons] at h
        rcases h with h | h
        · exact .inl h
        · exact .inr (by simp [h])
      · simp only [insertKV, if_neg hk, List.map_cons, List.mem_cons] at h
        rcases h with h | h
        · exact .inr (by simp [h])
        · rcases mem_values_insertKV h with h | h
          · exact .inl h
          · exact .inr (by simp [h])

theorem lookupKV_mem_values {α β : Type} [DecidableEq α] {k : α} {v : β} :
    ∀ {m : List (α × β)}, lookupKV k m = some v → v ∈ m.map Prod.snd
  | [], h => by simp [lookupKV] at h
  | (k', v') :: rest, h => by
      by_cases hk : k' = k
      · simp only [lookupKV, if_pos hk, Option.some.injEq] at h
        simp [h]
      · simp only [lookupKV, if_neg hk] at h
        simp [lookupKV_mem_values h]

theorem mem_values_foldl_const {b c : ValidatorState} :
    ∀ (l : List ValidatorState) (m0 : List (PublicKey × ValidatorState)),
      b ∈ ((l.foldl (fun m v => insertKV v.PublicKey c m) m0).map Prod.snd) →
      b = c ∨ b ∈ m0.map Prod.snd
  | [], m0, h => .inr h
  | x :: rest, m0, h => by
      rcases mem_values_foldl_const rest (insertKV x.PublicKey c m0) h with h | h
      · exact .inl h
      · exact mem_values_insertKV h

theorem mem_active_iff (s : State) (v : ValidatorState) :
    v ∈ s.GetActiveValidators ↔
      v ∈ s.validators.map Prod.snd ∧ v.Active = true := by
  simp [State.GetActiveValidators, List.mem_filter]

/-- A slashed positive uint64 stake stays positive: the 10% cut (with
Go's wrapping multiplication) is always strictly smaller than the
stake. -/
theorem slashStake_pos (s : Nat) (h0 : 0 < s) (hb : s < 18446744073709551616) :
    0 < (s + 18446744073709551616 -
          s * 10 % 18446744073709551616 / 100) % 18446744073709551616 := by
  have hlt : s * 10 % 18446744073709551616 / 100 < s := by
    by_cases hc : s * 10 < 18446744073709551616
    · rw [Nat.mod_eq_of_lt hc]
      omega
    · have h2 : s * 10 % 18446744073709551616 / 100 ≤
          18446744073709551615 / 100 :=
        Nat.div_le_div_right (by omega)
      omega
  omega

/-- `State.UpdateValidator` with the slashing mutator preserves the
active-set invariant: a slashed active validator keeps a positive
stake, and a deactivated one leaves the active set. -/
theorem updateValidator_slash_inv (s : State) (pk : PublicKey)
    (hb : StakesBounded s) (hinv : ActiveSetInv s) :
    ActiveSetInv (s.UpdateValidator pk slashUpdate).1 := by
  unfold State.UpdateValidator
  cases hl : lookupKV pk s.validators with
  | none => exact hinv
  | some val =>
      intro v hv
      rw [mem_active_iff] at hv
      obtain ⟨hmem, hact⟩ := hv
      rcases mem_values_insertKV hmem with rfl | hold
      · refine ⟨hact, ?_⟩
        have hvala : val.Active = true := by
          unfold slashUpdate at hact
          dsimp at hact
          split at hact
          · exact absurd hact (by simp)
          · exact hact
        have hvmem : val ∈ s.validators.map Prod.snd := lookupKV_mem_values hl
        have hpos : 0 < val.StakedAmount :=
          (hinv val ((mem_active_iff s val).2 ⟨hvmem, hvala⟩)).2
        have hlim : val.StakedAmount < 18446744073709551616 := hb val hvmem
        unfold slashUpdate
        dsimp
        exact slashStake_pos val.StakedAmount hpos hlim
      · exact hinv v ((mem_active_iff s v).2 ⟨hold, hact⟩)

end ApexCoin

namespace ApexCoin

/-- **C1.** The spec requires `ApplyBlock` to be all-or-nothing, but
the code applies transactions in place with no rollback: on the block
whose two transactions both spend key image `kiK`, `ApplyBlock` fails
with the double-spend error yet leaves the first transaction's key
image in the spent set — the state after the failed call differs from
the state before it. -/
theorem apexC1_no_rollback :
    (NewState.ApplyBlock blockC1).2 =
      some "double-spend detected: key image already spent" ∧
    kiK ∈ (NewState.ApplyBlock blockC1).1.spentKeyImages ∧
    kiK ∉ NewState.spentKeyImages ∧
    (NewState.ApplyBlock blockC1).1 ≠ NewState := by decide

/-- **C2 counterexample.** With total stake 100 and only validator A's
vote held (stake 66), `HasQuorum` is true and `FinalizeBlock` succeeds,
although 66 is below ⌈2·100/3⌉ = 67 — the claimed iff with the ceiling
threshold is false. -/
theorem apexC2_counterexample :
    engineC2.totalStake = 100 ∧ engineC2.voteStake = 66 ∧
    specCeilTwoThirds 100 = 67 ∧ engineC2.HasQuorum = true ∧
    (engineC2.FinalizeBlock blockEmpty).2.2 = none := by decide

/-- **C2 (amended).** `FinalizeBlock` succeeds (and `HasQuorum` is
true) iff the cumulative stake of the held votes is at least
`uint64(float64(totalStake) * float64(2/3))` — a truncating float
threshold, not the ceiling: for total stake 100 it is 66 (the spec's
⌈2·100/3⌉ would be 67); for total stake 3 rounding happens to give the
exact 2. -/
theorem apexC2_amended :
    (∀ (e : Engine) (b : Block),
      (e.HasQuorum = true ↔ quorumThreshold e.totalStake ≤ e.voteStake) ∧
      ((e.FinalizeBlock b).2.2 = none ↔
        quorumThreshold e.totalStake ≤ e.voteStake)) ∧
    quorumThreshold 100 = 66 ∧ quorumThreshold 3 = 2 := by
  refine ⟨fun e b => ⟨by simp [Engine.HasQuorum], ?_⟩, by decide, by decide⟩
  by_cases hq : quorumThreshold e.totalStake ≤ e.voteStake <;>
    simp [Engine.FinalizeBlock, Engine.HasQuorum, hq]

/-- **C3.** The stealth round-trip fails on the code: with genuine
Ed25519 key pairs (RFC 8032 TESTs 1–3) for the wallet and the ephemeral
key, the output produced by `GenerateStealthAddress` for the wallet's
own address is *not* recognized — the sender derives the shared secret
from SHA-256(ephemeralSeed ∥ viewPub) while the scanner derives it from
SHA-256(viewSeed ∥ ephemeralPub), and the hash surrogate, unlike real
ECDH, does not make these equal; `DeriveSpendKey` fails accordingly. -/
theorem apexC3_scan_fails :
    (walletC3.ScanTransaction outC3).1 = false ∧
    walletC3.DeriveSpendKey outC3 =
      .error "output does not belong to this wallet" := by decide

/-- **C4 counterexample.** The same vote (same validator, same round,
same block hash) delivered twice: the first delivery is stored, the
second triggers the double-vote slashing path — V's stake drops from
100 to 90 and the slash count becomes 1 — although the stored vote was
for the *same* block hash, which the claim says must not count as
equivocation.  (`CollectVote` never compares block hashes; votes do not
carry one.) -/
theorem apexC4_counterexample :
    (Engine.CollectVote verifyAlways engineC4 voteV hashH).2 = none ∧
    (Engine.CollectVote verifyAlways engineC4After voteV hashH).2 =
      some "double-vote detected" ∧
    lookupKV pkV
        ((Engine.CollectVote verifyAlways engineC4After voteV hashH).1.state.validators) =
      some ({ PublicKey := pkV, StakedAmount := 90, Active := true,
              JoinedHeight := 0, UnbondingUntil := 0,
              SlashCount := 1 } : ValidatorState) := by
  decide

/-- **C4 (amended).** For a known, active validator with a verifying
signature, `CollectVote` invokes double-vote slashing and rejects iff
the engine already holds a vote from this validator with the *same
round* — the block hash plays no role, so re-delivered duplicates are
slashed too. -/
theorem apexC4_amended :
    ∀ (verify : PublicKey → Hash → Signature → Bool) (e : Engine)
      (vote : ValidatorSignature) (blockHash : Hash) (val : ValidatorState),
      e.state.GetValidator vote.Validator = .ok val →
      val.Active = true →
      verify vote.Validator blockHash vote.Sig = true →
      (((Engine.CollectVote verify e vote blockHash).2 =
          some "double-vote detected" ∧
        (Engine.CollectVote verify e vote blockHash).1 =
          e.slashValidator vote.Validator) ↔
       ∃ ex, lookupKV vote.Validator e.votes = some ex ∧
         ex.Round = vote.Round) := by
  intro verify e vote blockHash val hval hact hver
  unfold Engine.CollectVote
  rw [hval]
  simp only [hact, hver, Bool.not_true, Bool.false_eq_true, if_false]
  cases hlook : lookupKV vote.Validator e.votes with
  | none => simp
  | some ex =>
      by_cases hr : ex.Round = vote.Round
      · simp [hr]
      · simp [hr]

/-- Witness for C4 (amended): the duplicate-delivery engine discharges
the hypotheses, and the right side of the iff holds, so the call
slashes and rejects. -/
theorem apexC4_amended_witness :
    engineC4After.state.GetValidator voteV.Validator = .ok valV100 ∧
    valV100.Active = true ∧
    verifyAlways voteV.Validator hashH voteV.Sig = true ∧
    (((Engine.CollectVote verifyAlways engineC4After voteV hashH).2 =
        some "double-vote detected" ∧
      (Engine.CollectVote verifyAlways engineC4After voteV hashH).1 =
        engineC4After.slashValidator voteV.Validator) ↔
     ∃ ex, lookupKV voteV.Validator engineC4After.votes = some ex ∧
       ex.Round = voteV.Round) :=
  ⟨by decide, by decide, by decide,
   apexC4_amended verifyAlways engineC4After voteV hashH valV100
     (by decide) (by decide) (by decide)⟩

/-- **C5.** With one active validator of stake 0 the validator set is
non-empty, so `SelectProposer` passes the only guard the code has and
evaluates `selection % totalStake` with a zero divisor — a runtime
panic, not the "no validators" error the claim requires.  Only the
*empty* set produces the error. -/
theorem apexC5_zero_stake_panic :
    engineC5.validatorSet ≠ [] ∧ engineC5.totalStake = 0 ∧
    engineC5.SelectProposer 1 0 = .error .panicModZero ∧
    engineC5Empty.SelectProposer 1 0 =
      .error (.msg "no validators in set") := by decide

/-- **C6 counterexample.** `AddValidator` accepts stake 0 and stores an
*active* validator with staked amount 0: starting from the empty state
(which satisfies the invariant) the active set gains an entry violating
`staked_amount > 0`. -/
theorem apexC6_counterexample :
    ActiveSetInv NewState ∧
    ¬ ActiveSetInv (NewState.AddValidator pkA 0 5).1 := by decide

/-- **C6 (amended).** The active-set invariant (every entry returned by
`GetActiveValidators` is active with positive stake) is preserved by
`AddValidator` *provided the new stake is positive*, by the slashing
mutator (for uint64-bounded stakes — slashing never zeroes a positive
stake), by the unbonding mutator (which deactivates), and by genesis
initialization *provided every listed active validator has positive
stake*; it is not preserved by `AddValidator` with stake 0. -/
theorem apexC6_amended :
    (∀ (s : State) (pk : PublicKey) (stake h : Nat),
        0 < stake → ActiveSetInv s →
        ActiveSetInv (s.AddValidator pk stake h).1) ∧
    (∀ (e : Engine) (pk : PublicKey),
        StakesBounded e.state → ActiveSetInv e.state →
        ActiveSetInv (e.slashValidator pk).state) ∧
    (∀ (s : State) (pk : PublicKey) (h : Nat),
        ActiveSetInv s →
        ActiveSetInv (s.UpdateValidator pk (unbondUpdate h)).1) ∧
    (∀ (s : State) (g : GenesisConfig),
        (∀ v ∈ g.InitialValidators, v.Active = true → 0 < v.StakedAmount) →
        ActiveSetInv s → ActiveSetInv (s.InitializeGenesis g).1) := by
  refine ⟨?_, ?_, ?_, ?_⟩
  · intro s pk stake h hpos hinv
    unfold State.AddValidator
    cases hl : lookupKV pk s.validators with
    | some _ => exact hinv
    | none =>
        intro v hv
        rw [mem_active_iff] at hv
        obtain ⟨hmem, hact⟩ := hv
        rcases mem_values_insertKV hmem with rfl | hold
        · exact ⟨hact, hpos⟩
        · exact hinv v ((mem_active_iff s v).2 ⟨hold, hact⟩)
  · intro e pk hb hinv
    exact updateValidator_slash_inv e.state pk hb hinv
  · intro s pk h hinv
    unfold State.UpdateValidator
    cases hl : lookupKV pk s.validators with
    | none => exact hinv
    | some val =>
        intro v hv
        rw [mem_active_iff] at hv
        obtain ⟨hmem, hact⟩ := hv
        rcases mem_values_insertKV hmem with rfl | hold
        · exact absurd hact (by simp [unbondUpdate])
        · exact hinv v ((mem_active_iff s v).2 ⟨hold, hact⟩)
  · intro s g hg hinv
    unfold State.InitializeGenesis
    cases hlast : g.InitialValidators.getLast? with
    | none => exact fun v hv => hinv v hv
    | some last =>
        intro v hv
        rw [mem_active_iff] at hv
        obtain ⟨hmem, hact⟩ := hv
        rcases mem_values_foldl_const g.InitialValidators s.validators hmem
          with rfl | hold
        · exact ⟨hact, hg v (List.mem_of_mem_getLast? hlast) hact⟩
        · exact hinv v ((mem_active_iff s v).2 ⟨hold, hact⟩)

/-- Witness for C6 (amended): adding a validator with positive stake to
the empty state keeps the invariant. -/
theorem apexC6_amended_witness :
    (0 : Nat) < 50 ∧ ActiveSetInv NewState ∧
    ActiveSetInv (NewState.AddValidator pkA 50 0).1 :=
  ⟨by decide, by decide,
   apexC6_amended.1 NewState pkA 50 0 (by decide) (by decide)⟩

/-- **C7.** The header hash is SHA-256 over
prevBlockHash ∥ txRoot ∥ stateRoot ∥ proposer, so any two headers equal
on those four fields hash identically regardless of height, timestamp
and round. -/
theorem apexC7_header_hash :
    (∀ bh : BlockHeader,
      bh.Hash = Sha256.Sum256
        (bh.PrevBlockHash ++ bh.TxRoot ++ bh.StateRoot ++ bh.Proposer)) ∧
    (∀ h1 h2 : BlockHeader,
      h1.PrevBlockHash = h2.PrevBlockHash → h1.TxRoot = h2.TxRoot →
      h1.StateRoot = h2.StateRoot → h1.Proposer = h2.Proposer →
      h1.Hash = h2.Hash) := by
  refine ⟨fun bh => rfl, fun h1 h2 e1 e2 e3 e4 => ?_⟩
  unfold BlockHeader.Hash
  rw [e1, e2, e3, e4]

/-- Witness for C7: two headers differing in height, timestamp and
round but equal on the four hashed fields have the same hash. -/
theorem apexC7_header_hash_witness :
    (hdrA.Height ≠ hdrB.Height ∧ hdrA.Timestamp ≠ hdrB.Timestamp ∧
     hdrA.Round ≠ hdrB.Round ∧ hdrA.PrevBlockHash = hdrB.PrevBlockHash ∧
     hdrA.TxRoot = hdrB.TxRoot ∧ hdrA.StateRoot = hdrB.StateRoot ∧
     hdrA.Proposer = hdrB.Proposer) ∧
    hdrA.Hash = hdrB.Hash :=
  ⟨by decide, apexC7_header_hash.2 hdrA hdrB rfl rfl rfl rfl⟩

/-- **C8.** The transaction hash depends only on the ordered input key
images and the ordered output (viewKey, spendKey) pairs — any two
transactions equal on those are hashed equally, whatever their
versions, amounts, fees, ring signatures or range proofs — and
swapping the two distinct-key outputs of the concrete `txP` changes the
hash. -/
theorem apexC8_tx_hash :
    (∀ tx tx' : Transaction,
      tx.Inputs.map TxInput.KeyImage = tx'.Inputs.map TxInput.KeyImage →
      tx.Outputs.map outKeyBytes = tx'.Outputs.map outKeyBytes →
      tx.Hash = tx'.Hash) ∧
    txP.Hash ≠ txQ.Hash := by
  refine ⟨fun tx tx' h1 h2 => ?_, by decide⟩
  unfold Transaction.Hash
  rw [h1, h2]

/-- Witness for C8: `txR` differs from `txP` in version, input amount,
output amounts, fee, ring signature and range proofs but matches on key
images and output key pairs — the hashes agree. -/
theorem apexC8_tx_hash_witness :
    (txP.Version ≠ txR.Version ∧ txP.Fee ≠ txR.Fee ∧
     txP.RingSig ≠ txR.RingSig ∧ txP.RangeProofs ≠ txR.RangeProofs ∧
     txP.Inputs.map TxInput.KeyImage = txR.Inputs.map TxInput.KeyImage ∧
     txP.Outputs.map outKeyBytes = txR.Outputs.map outKeyBytes) ∧
    txP.Hash = txR.Hash :=
  ⟨by decide, apexC8_tx_hash.1 txP txR rfl rfl⟩

/-- **C9 counterexample.** `makeBlockKey` writes the height little-
endian: at height 1 the byte after 'b' is 1, whereas the claimed
big-endian layout puts the 1 last. -/
theorem apexC9_counterexample :
    makeBlockKey 1 = [98, 1, 0, 0, 0, 0, 0, 0, 0] ∧
    specBlockKeyBE 1 = [98, 0, 0, 0, 0, 0, 0, 0, 1] ∧
    makeBlockKey 1 ≠ specBlockKeyBE 1 := by decide

/-- **C9 (amended).** `SaveBlock` stores the serialized block under the
key 'b' followed by the 8-byte *little-endian* height (not big-endian),
`GetBlock` reads the very same key, and the round trip returns the
stored serialization. -/
theorem apexC9_amended :
    (∀ h : Nat, makeBlockKey h = 98 :: leBytes64 h) ∧
    (∀ (marshal : Block → Bytes) (db : Store) (b : Block),
      Database.GetBlock (Database.SaveBlock marshal db b) b.Header.Height =
        some (marshal b)) ∧
    (∀ (db : Store) (h : Nat),
      Database.GetBlock db h = lookupKV (makeBlockKey h) db) := by
  refine ⟨fun h => rfl, ?_, fun db h => rfl⟩
  intro marshal db b
  unfold Database.GetBlock Database.SaveBlock
  rw [lookupKV_insertKV, lookupKV_insertKV]
  have hne : ¬ makeBlockHashKey b.Header.Hash = makeBlockKey b.Header.Height := by
    intro hcon
    simp [makeBlockHashKey, makeBlockKey] at hcon
  rw [if_neg hne, if_pos rfl]

/-- **C10.** When `FinalizeBlock` fails for lack of quorum it has
already appended every held vote to the block argument, and the vote
map and round counter are untouched — the failure is not atomic with
respect to the block. -/
theorem apexC10_finalize_mutates :
    ∀ (e : Engine) (b : Block),
      ((e.FinalizeBlock b).2.2).isSome = true →
      (e.FinalizeBlock b).2.1.Validators =
        b.Validators ++ e.votes.map Prod.snd ∧
      (e.FinalizeBlock b).1.votes = e.votes ∧
      (e.FinalizeBlock b).1.currentRound = e.currentRound := by
  intro e b herr
  unfold Engine.FinalizeBlock at herr ⊢
  cases hq : e.HasQuorum with
  | false => simp [hq]
  | true => simp [hq] at herr

/-- Witness for C10: with only B's vote (stake 34 of 100) finalization
fails, yet the returned block carries B's vote and the engine still
holds it at the same round. -/
theorem apexC10_finalize_mutates_witness :
    ((engineC10.FinalizeBlock blockEmpty).2.2).isSome = true ∧
    ((engineC10.FinalizeBlock blockEmpty).2.1.Validators =
        blockEmpty.Validators ++ engineC10.votes.map Prod.snd ∧
      (engineC10.FinalizeBlock blockEmpty).1.votes = engineC10.votes ∧
      (engineC10.FinalizeBlock blockEmpty).1.currentRound =
        engineC10.currentRound) :=
  ⟨by decide, apexC10_finalize_mutates engineC10 blockEmpty (by decide)⟩

/-- FIPS 180-4 test vector: the digest of the empty message
(e3b0c442…b855). -/
theorem sha256_empty_vector :
    Sha256.Sum256 [] =
      [227, 176, 196, 66, 152, 252, 28, 20,
       154, 251, 244, 200, 153, 111, 185, 36,
       39, 174, 65, 228, 100, 155, 147, 76,
       164, 149, 153, 27, 120, 82, 184, 85] := by decide

/-- FIPS 180-4 test vector: the digest of "abc" (ba7816bf…15ad). -/
theorem sha256_abc_vector :
    Sha256.Sum256 [97, 98, 99] =
      [186, 120, 22, 191, 143, 1, 207, 234,
       65, 65, 64, 222, 93, 174, 34, 35,
       176, 3, 97, 163, 150, 23, 122, 156,
       180, 16, 255, 97, 242, 0, 21, 173] := by decide

end ApexCoin
